import Mathlib

/-!
Shallow embedding of the smart-contract heuristic analyzer
(`smartcheck-service` / `smartcheck-rules`): preprocessing, the line-based
function extractor, the per-function analyzer, the rule catalog, and the
orchestrator, together with proofs of the specified properties.

Source text is modelled as `List Char`.  JavaScript string/array
operations (`split`, `trim`, `includes`, `startsWith`, `findIndex`,
`slice`, regular-expression search) are translated into executable Lean
functions with the same semantics on the inputs the analyzer handles
(the `\s` character class is modelled by the ASCII whitespace characters,
which covers every whitespace character the analyzer's own patterns and
inputs use).
-/

/-- ASCII model of the JavaScript `\s` class and of the characters
`String.prototype.trim` removes. -/
def isWS (c : Char) : Bool :=
  c == ' ' || c == '\t' || c == '\n' || c == '\r' || c == '\x0b' || c == '\x0c'

/-- Model of the regex `\w` class: letters, digits, underscore. -/
def isWordChar (c : Char) : Bool :=
  c.isAlpha || c.isDigit || c == '_'

/-- Model of the regex class `[a-fA-F0-9]`. -/
def isHexChar (c : Char) : Bool :=
  c.isDigit || ('a' ≤ c && c ≤ 'f') || ('A' ≤ c && c ≤ 'F')

/-- `leadsWith p l` is JavaScript `l.startsWith(p)`. -/
def leadsWith : List Char → List Char → Bool
  | [], _ => true
  | _ :: _, [] => false
  | p :: ps, c :: cs => p == c && leadsWith ps cs

/-- `containsSub p l` is JavaScript `l.includes(p)`. -/
def containsSub (p : List Char) : List Char → Bool
  | [] => leadsWith p []
  | c :: cs => leadsWith p (c :: cs) || containsSub p cs

/-- JavaScript `code.split("\n")`: splits at every newline, `[""]` on the
empty string. -/
def splitOnNl : List Char → List (List Char)
  | [] => [[]]
  | c :: rest =>
    if c = '\n' then [] :: splitOnNl rest
    else
      match splitOnNl rest with
      | [] => [[c]]
      | h :: t => (c :: h) :: t

/-- Global replacement of the two-character sequence `\r\n` by `\n`
(JavaScript `.replace(/\r\n/g, "\n")`, non-overlapping left-to-right). -/
def replaceCRLF : List Char → List Char
  | [] => []
  | [c] => [c]
  | c1 :: c2 :: rest =>
    if c1 = '\r' ∧ c2 = '\n' then '\n' :: replaceCRLF rest
    else c1 :: replaceCRLF (c2 :: rest)

/-- Global replacement of `\r` by `\n` (JavaScript `.replace(/\r/g, "\n")`). -/
def replaceCR (l : List Char) : List Char :=
  l.map fun c => if c = '\r' then '\n' else c

/-- Global replacement of `\t` by four spaces
(JavaScript `.replace(/\t/g, "    ")`). -/
def expandTabs : List Char → List Char
  | [] => []
  | c :: rest =>
    if c = '\t' then ' ' :: ' ' :: ' ' :: ' ' :: expandTabs rest
    else c :: expandTabs rest

/-- Remove trailing whitespace (right half of JavaScript `trim`). -/
def trimRightWS (l : List Char) : List Char :=
  (l.reverse.dropWhile isWS).reverse

/-- JavaScript `String.prototype.trim` over the ASCII whitespace model. -/
def trimWS (l : List Char) : List Char :=
  trimRightWS (l.dropWhile isWS)

/-- The preprocessor `preprocessSolidityCode`: normalize line endings,
expand tabs to four spaces, trim the whole text. -/
def preprocessSolidityCode (code : List Char) : List Char :=
  trimWS (expandTabs (replaceCR (replaceCRLF code)))

/-- Zero or more whitespace characters followed by `(` or `{`
(the regex tail `\s*[({]`). -/
def wsThenOpen : List Char → Bool
  | [] => false
  | c :: cs => if c == '(' || c == '{' then true else if isWS c then wsThenOpen cs else false

/-- Match of the regex `\.(call|send|transfer)\s*[({]` anchored at the head
of the list. -/
def extCallAt (l : List Char) : Bool :=
  match l with
  | '.' :: rest =>
    (leadsWith ("call".data) rest && wsThenOpen (rest.drop 4)) ||
    (leadsWith ("send".data) rest && wsThenOpen (rest.drop 4)) ||
    (leadsWith ("transfer".data) rest && wsThenOpen (rest.drop 8))
  | _ => false

/-- JavaScript `line.match(/\.(call|send|transfer)\s*[({]/) !== null`. -/
def matchExternalCall : List Char → Bool
  | [] => false
  | c :: cs => extCallAt (c :: cs) || matchExternalCall cs

/-- Match of the regex `([+=]|[-=]|= [^=])` anchored at the head of the
list: `+` or `=`, or `-` or `=`, or `=` followed by a space and a
non-`=` character. -/
def stateAt : List Char → Bool
  | [] => false
  | c :: cs =>
    (c == '+' || c == '=') || (c == '-' || c == '=') ||
    (c == '=' &&
      match cs with
      | s :: d :: _ => s == ' ' && !(d == '=')
      | _ => false)

/-- JavaScript `line.match(/([+=]|[-=]|= [^=])/) !== null`. -/
def matchStateChange : List Char → Bool
  | [] => false
  | c :: cs => stateAt (c :: cs) || matchStateChange cs

/-- Match of the regex `0x[a-fA-F0-9]{40}` anchored at the head. -/
def hexAddrAt (l : List Char) : Bool :=
  match l with
  | '0' :: 'x' :: rest => ((rest.take 40).length == 40) && (rest.take 40).all isHexChar
  | _ => false

/-- JavaScript `/0x[a-fA-F0-9]{40}/.test(line)`. -/
def matchHexAddr : List Char → Bool
  | [] => false
  | c :: cs => hexAddrAt (c :: cs) || matchHexAddr cs

/-- One reported issue (`SmartCheckResult` in the source). -/
structure SmartCheckResult where
  severity : String
  message : String
  line : Nat
  column : Nat
  rule : String
  description : String
  recommendation : String
deriving DecidableEq, Repr

/-- The `error`/`syntax` result emitted when no contract declaration is
found. -/
def noContractFinding : SmartCheckResult :=
  { severity := "error"
    message := "No contract declaration found"
    line := 1
    column := 1
    rule := "syntax"
    description := "The code must contain a contract declaration."
    recommendation := "Add a contract declaration using \x27contract ContractName \x7b\x27" }

/-- The `low`/`state-visibility` result for a public state variable. -/
def stateVisibilityFinding (line : Nat) : SmartCheckResult :=
  { severity := "low"
    message := "Public state variable without getter"
    line := line
    column := 1
    rule := "state-visibility"
    description := "Public state variables automatically create getters, which may expose sensitive data."
    recommendation := "Consider using private visibility with explicit getter functions for better control." }

/-- The `medium`/`visibility` result for a public function without a
state-mutability specifier. -/
def visibilityFinding (line : Nat) : SmartCheckResult :=
  { severity := "medium"
    message := "Public function without state mutability specifier"
    line := line
    column := 1
    rule := "visibility"
    description := "Public functions should explicitly declare their state mutability."
    recommendation := "Add stateMutability specifier (pure, view, payable, or nonpayable) to the function." }

/-- The `medium`/`payable-validation` result. -/
def payableValidationFinding (line : Nat) : SmartCheckResult :=
  { severity := "medium"
    message := "Payable function without value validation"
    line := line
    column := 1
    rule := "payable-validation"
    description := "Payable functions should validate the received value."
    recommendation := "Add require(msg.value > 0) or similar validation at the start of the function." }

/-- The `high`/`reentrancy` result pushed by the function analyzer. -/
def reentrancyFnFinding (line : Nat) : SmartCheckResult :=
  { severity := "high"
    message := "Potential reentrancy vulnerability detected"
    line := line
    column := 1
    rule := "reentrancy"
    description := "State changes are made after external calls, which could lead to reentrancy attacks."
    recommendation := "Use the Checks-Effects-Interactions pattern or a reentrancy guard." }

/-- The `high`/`unprotected-init` result. -/
def unprotectedInitFinding (line : Nat) : SmartCheckResult :=
  { severity := "high"
    message := "Unprotected initialization function"
    line := line
    column := 1
    rule := "unprotected-init"
    description := "Initialization function should be protected from multiple calls."
    recommendation := "Add an initialization guard using a boolean flag." }

/-- The `high`/`unprotected-upgrade` result. -/
def unprotectedUpgradeFinding (line : Nat) : SmartCheckResult :=
  { severity := "high"
    message := "Unprotected upgrade function"
    line := line
    column := 1
    rule := "unprotected-upgrade"
    description := "Upgrade functions should be protected with access control."
    recommendation := "Add onlyOwner modifier or similar access control." }

/-- The `high`/`unprotected-withdraw` result. -/
def unprotectedWithdrawFinding (line : Nat) : SmartCheckResult :=
  { severity := "high"
    message := "Unprotected withdraw function"
    line := line
    column := 1
    rule := "unprotected-withdraw"
    description := "Withdraw functions should be protected with access control."
    recommendation := "Add onlyOwner modifier or similar access control." }

/-- The `high`/`unprotected-selfdestruct` result. -/
def unprotectedSelfdestructFinding (line : Nat) : SmartCheckResult :=
  { severity := "high"
    message := "Unprotected selfdestruct function"
    line := line
    column := 1
    rule := "unprotected-selfdestruct"
    description := "Selfdestruct functions should be protected with access control."
    recommendation := "Add onlyOwner modifier or similar access control." }

/-- The `error`/`input-validation` result for empty or non-string input. -/
def inputValidationFinding : SmartCheckResult :=
  { severity := "error"
    message := "Invalid source code provided"
    line := 1
    column := 1
    rule := "input-validation"
    description := "The provided source code is empty or invalid."
    recommendation := "Please provide valid Solidity source code." }

/-- The `info`/`analysis-complete` sentinel result. -/
def analysisCompleteFinding : SmartCheckResult :=
  { severity := "info"
    message := "No issues found"
    line := 1
    column := 1
    rule := "analysis-complete"
    description := "The contract analysis completed successfully with no issues detected."
    recommendation := "Continue monitoring for potential vulnerabilities as the contract evolves." }

/-- The catalog `reentrancy` rule's result (description differs from the
function analyzer's). -/
def reentrancyRuleFinding (line : Nat) : SmartCheckResult :=
  { severity := "high"
    message := "Potential reentrancy vulnerability detected"
    line := line
    column := 1
    rule := "reentrancy"
    description := "The contract may be vulnerable to reentrancy attacks. State changes are made after external calls."
    recommendation := "Consider using the Checks-Effects-Interactions pattern or a reentrancy guard." }

/-- The catalog `tx-origin` rule's result. -/
def txOriginFinding (line : Nat) : SmartCheckResult :=
  { severity := "high"
    message := "Use of tx.origin detected"
    line := line
    column := 1
    rule := "tx-origin"
    description := "Use of tx.origin for authentication is vulnerable to phishing attacks."
    recommendation := "Use msg.sender instead of tx.origin for authentication." }

/-- The catalog `timestamp-dependence` rule's result. -/
def timestampFinding (line : Nat) : SmartCheckResult :=
  { severity := "medium"
    message := "Timestamp dependence detected"
    line := line
    column := 1
    rule := "timestamp-dependence"
    description := "Contract uses block.timestamp for critical operations."
    recommendation := "Avoid using block.timestamp for critical operations as it can be manipulated by miners." }

/-- The catalog `hardcoded-address` rule's result. -/
def hardcodedAddressFinding (line : Nat) : SmartCheckResult :=
  { severity := "medium"
    message := "Hardcoded address detected"
    line := line
    column := 1
    rule := "hardcoded-address"
    description := "Contract contains hardcoded Ethereum addresses."
    recommendation := "Use configuration variables or constructor parameters instead of hardcoded addresses." }

/-- The catalog `unchecked-send` rule's result. -/
def uncheckedSendFinding (line : Nat) : SmartCheckResult :=
  { severity := "medium"
    message := "Unchecked send/transfer detected"
    line := line
    column := 1
    rule := "unchecked-send"
    description := "Unchecked return value from send/transfer call."
    recommendation := "Always check the return value of send/transfer calls." }

/-- The catalog `delegatecall-usage` rule's result. -/
def delegatecallFinding (line : Nat) : SmartCheckResult :=
  { severity := "high"
    message := "Use of delegatecall detected"
    line := line
    column := 1
    rule := "delegatecall-usage"
    description := "Use of delegatecall detected."
    recommendation := "Be extremely careful with delegatecall as it can lead to unexpected behavior and vulnerabilities." }

/-- The catalog `selfdestruct-usage` rule's result. -/
def selfdestructUsageFinding (line : Nat) : SmartCheckResult :=
  { severity := "high"
    message := "Use of selfdestruct detected"
    line := line
    column := 1
    rule := "selfdestruct-usage"
    description := "Use of selfdestruct detected."
    recommendation := "Be careful with selfdestruct as it can lead to loss of funds." }

/-- The catalog `suicide-usage` rule's result. -/
def suicideUsageFinding (line : Nat) : SmartCheckResult :=
  { severity := "high"
    message := "Use of deprecated suicide function detected"
    line := line
    column := 1
    rule := "suicide-usage"
    description := "Use of deprecated suicide function detected."
    recommendation := "Use selfdestruct instead of suicide as it is deprecated." }

/-- The catalog `throw-usage` rule's result. -/
def throwUsageFinding (line : Nat) : SmartCheckResult :=
  { severity := "medium"
    message := "Use of deprecated throw statement detected"
    line := line
    column := 1
    rule := "throw-usage"
    description := "Use of deprecated throw statement detected."
    recommendation := "Use require, assert, or revert instead of throw." }

/-- The catalog `gas-limit` rule's result. -/
def gasLimitFinding (line : Nat) : SmartCheckResult :=
  { severity := "medium"
    message := "Potential gas limit issue detected"
    line := line
    column := 1
    rule := "gas-limit"
    description := "Potential gas limit issue detected."
    recommendation := "Consider using loops with a fixed number of iterations or implement pagination." }

/-- A catalog rule's `check` function: one line of text and its 1-based
line number, returning an optional result. -/
def RuleCheck : Type := List Char → Nat → Option SmartCheckResult

/-- The catalog `reentrancy` rule (`rules[0].check`). -/
def reentrancyRule : RuleCheck := fun code line =>
  let hasExternalCall :=
    containsSub (".call\x7b".data) code || containsSub (".send(".data) code ||
      containsSub (".transfer(".data) code
  let hasStateChange :=
    containsSub ("balances[".data) code || containsSub ("+=".data) code ||
      containsSub ("-=".data) code
  if hasExternalCall && hasStateChange then some (reentrancyRuleFinding line) else none

/-- The catalog `tx-origin` rule (`rules[1].check`). -/
def txOriginRule : RuleCheck := fun code line =>
  if containsSub ("tx.origin".data) code then some (txOriginFinding line) else none

/-- The catalog `timestamp-dependence` rule (`rules[2].check`). -/
def timestampRule : RuleCheck := fun code line =>
  if containsSub ("block.timestamp".data) code then some (timestampFinding line) else none

/-- The catalog `hardcoded-address` rule (`rules[3].check`). -/
def hardcodedAddressRule : RuleCheck := fun code line =>
  if matchHexAddr code then some (hardcodedAddressFinding line) else none

/-- The catalog `unchecked-send` rule (`rules[4].check`). -/
def uncheckedSendRule : RuleCheck := fun code line =>
  if containsSub (".send(".data) code || containsSub (".transfer(".data) code then
    let hasCheck :=
      containsSub ("require(".data) code || containsSub ("if (".data) code ||
        containsSub ("assert(".data) code
    if !hasCheck then some (uncheckedSendFinding line) else none
  else none

/-- The catalog `delegatecall-usage` rule (`rules[5].check`). -/
def delegatecallRule : RuleCheck := fun code line =>
  if containsSub (".delegatecall(".data) code then some (delegatecallFinding line) else none

/-- The catalog `selfdestruct-usage` rule (`rules[6].check`). -/
def selfdestructUsageRule : RuleCheck := fun code line =>
  if containsSub ("selfdestruct(".data) code then some (selfdestructUsageFinding line) else none

/-- The catalog `suicide-usage` rule (`rules[7].check`). -/
def suicideUsageRule : RuleCheck := fun code line =>
  if containsSub ("suicide(".data) code then some (suicideUsageFinding line) else none

/-- The catalog `throw-usage` rule (`rules[8].check`). -/
def throwUsageRule : RuleCheck := fun code line =>
  if containsSub ("throw;".data) code then some (throwUsageFinding line) else none

/-- The catalog `gas-limit` rule (`rules[9].check`). -/
def gasLimitRule : RuleCheck := fun code line =>
  if containsSub ("for (".data) code || containsSub ("while (".data) code then
    let hasLimit :=
      containsSub ("require(".data) code || containsSub ("if (".data) code ||
        containsSub ("assert(".data) code
    if !hasLimit then some (gasLimitFinding line) else none
  else none

/-- The ordered rule catalog (`rules` in `smartcheck-rules`). -/
def rulesCatalog : List RuleCheck :=
  [reentrancyRule, txOriginRule, timestampRule, hardcodedAddressRule, uncheckedSendRule,
   delegatecallRule, selfdestructUsageRule, suicideUsageRule, throwUsageRule, gasLimitRule]

/-- The mutable per-function record tracked during extraction
(`currentFunction` in `analyzeContractSimple`). -/
structure FuncState where
  code : List Char
  hasExternalCall : Bool
  hasStateChange : Bool
  isPayable : Bool
  visibility : Option String
  hasModifier : Bool
  modifiers : List (List Char)
deriving DecidableEq, Repr

/-- Fuel-driven scan for the global regex `/modifier\s+(\w+)/g`: returns
the full non-overlapping matches, resuming after each match as the
JavaScript engine does.  The fuel (initialized to the list length, which
bounds the number of scan steps) makes the recursion structural. -/
def modScanF : Nat → List Char → List (List Char)
  | 0, _ => []
  | _, [] => []
  | fuel + 1, c :: cs =>
    if leadsWith ("modifier".data) (c :: cs) then
      let after := cs.drop 7
      let wsRun := after.takeWhile isWS
      let rest1 := after.drop wsRun.length
      let wRun := rest1.takeWhile isWordChar
      if wsRun.isEmpty || wRun.isEmpty then modScanF fuel cs
      else ("modifier".data ++ wsRun ++ wRun) :: modScanF fuel (rest1.drop wRun.length)
    else modScanF fuel cs

/-- JavaScript `line.match(/modifier\s+(\w+)/g)` (full-match strings, or
none). -/
def modScan (l : List Char) : List (List Char) :=
  modScanF l.length l

/-- JavaScript `m.replace("modifier ", "")`: deletes the first occurrence
of the literal pattern (noting the pattern is non-empty). -/
def dropModKeyword : List Char → List Char
  | [] => []
  | c :: cs =>
    if leadsWith ("modifier ".data) (c :: cs) then (c :: cs).drop 9
    else c :: dropModKeyword cs

/-- First match of `/function\s+(\w+)/`, capture group 1, else the empty
string (`func.code.match(/function\s+(\w+)/)?.[1] || ""`). -/
def fnNameOf : List Char → List Char
  | [] => []
  | c :: cs =>
    if leadsWith ("function".data) (c :: cs) then
      let after := cs.drop 7
      let wsRun := after.takeWhile isWS
      let rest1 := after.drop wsRun.length
      let wRun := rest1.takeWhile isWordChar
      if wsRun.isEmpty || wRun.isEmpty then fnNameOf cs else wRun
    else fnNameOf cs

/-- The record created when a line starting with `function` is scanned. -/
def mkFunc (line : List Char) : FuncState :=
  let visibility :=
    if containsSub ("public".data) line then some "public"
    else if containsSub ("private".data) line then some "private"
    else if containsSub ("internal".data) line then some "internal"
    else if containsSub ("external".data) line then some "external"
    else none
  let modifiers := (modScan line).map dropModKeyword
  { code := line
    hasExternalCall := false
    hasStateChange := false
    isPayable := containsSub ("payable".data) line
    visibility := visibility
    hasModifier := !modifiers.isEmpty
    modifiers := modifiers }

/-- Appending a non-signature line to the current record: extend the body
and update the external-call/state-change flags via the two regexes. -/
def bodyStep (f : FuncState) (line : List Char) : FuncState :=
  let f1 := { f with code := f.code ++ '\n' :: line }
  let f2 := if matchExternalCall line then { f1 with hasExternalCall := true } else f1
  if matchStateChange line then { f2 with hasStateChange := true } else f2

/-- JavaScript `Array.prototype.findIndex` (index from `i0`), returning
`-1` when no element satisfies the predicate. -/
def jsFindIndexFrom (p : Nat → List Char → Bool) : List (List Char) → Nat → Int
  | [], _ => -1
  | x :: xs, i => if p i x then (i : Int) else jsFindIndexFrom p xs (i + 1)

/-- JavaScript `lines.findIndex(line => q line)`. -/
def jsFindIndex (q : List Char → Bool) (l : List (List Char)) : Int :=
  jsFindIndexFrom (fun _ x => q x) l 0

/-- JavaScript `l.slice(s, e)` where the end bound may be negative
(counted from the end, clamped at zero). -/
def jsSlice (l : List (List Char)) (s : Nat) (e : Int) : List (List Char) :=
  let eI : Int := if e < 0 then (l.length : Int) + e else e
  (l.take eI.toNat).drop s

/-- The state-variable test: the line contains `public` and neither
`constant` nor `immutable`. -/
def svPred (line : List Char) : Bool :=
  containsSub ("public".data) line && !containsSub ("constant".data) line &&
    !containsSub ("immutable".data) line

/-- The state-variable pass: each preamble line satisfying `svPred`
yields a `state-visibility` result at line `contractLine + index + 2`. -/
def svFindings : List (List Char) → Nat → Nat → List SmartCheckResult
  | [], _, _ => []
  | line :: rest, cl, idx =>
    (if svPred line then [stateVisibilityFinding (cl + idx + 2)] else []) ++
      svFindings rest cl (idx + 1)

/-- The per-function analyzer `analyzeFunction`: given a finalized record
and its start line, the list of results it pushes, in push order. -/
def analyzeFunction (func : FuncState) (startLine : Nat) : List SmartCheckResult :=
  let lines := splitOnNl func.code
  let functionName := fnNameOf func.code
  (if func.visibility == some "public" && !containsSub ("pure".data) func.code &&
      !containsSub ("view".data) func.code
   then [visibilityFinding (startLine + 1)] else []) ++
  (if func.isPayable then
    (if lines.any (fun line =>
        leadsWith ("require(msg.value".data) (trimWS line) ||
        leadsWith ("if (msg.value".data) (trimWS line))
     then [] else [payableValidationFinding (startLine + 1)])
   else []) ++
  (if func.hasExternalCall && func.hasStateChange then
    (let stateChangeIndex := jsFindIndex matchStateChange lines
     let externalCallIndex := jsFindIndex matchExternalCall lines
     if stateChangeIndex > externalCallIndex then [reentrancyFnFinding (startLine + 1)] else [])
   else []) ++
  (let isProtected := func.hasModifier && func.modifiers.any (fun m => m == "onlyOwner".data)
   if isProtected then []
   else
     (if functionName == "initialize".data then [unprotectedInitFinding (startLine + 1)] else []) ++
     (if functionName == "upgrade".data then [unprotectedUpgradeFinding (startLine + 1)] else []) ++
     (if functionName == "withdraw".data then [unprotectedWithdrawFinding (startLine + 1)] else []) ++
     (if lines.any (fun line => containsSub ("selfdestruct".data) line)
      then [unprotectedSelfdestructFinding (startLine + 1)] else []))

/-- The second pass of `analyzeContractSimple`: scan the trimmed lines,
opening a new record at each line starting with `function` (closing and
analyzing the previous one) and feeding every other line to the current
record. -/
def funcScan : List (List Char) → Nat → Option FuncState → Nat → List SmartCheckResult →
    List SmartCheckResult
  | [], _, cur, fStart, results =>
    match cur with
    | some f => results ++ analyzeFunction f fStart
    | none => results
  | line :: rest, i, cur, fStart, results =>
    if leadsWith ("function".data) line then
      let results1 :=
        match cur with
        | some f => results ++ analyzeFunction f fStart
        | none => results
      funcScan rest (i + 1) (some (mkFunc line)) i results1
    else
      match cur with
      | some f => funcScan rest (i + 1) (some (bodyStep f line)) fStart results
      | none => funcScan rest (i + 1) none fStart results

/-- One catalog-rule application with the orchestrator's deduplication:
the candidate result is dropped when a result with the same rule id
within two lines is already present. -/
def applyRule (results : List SmartCheckResult) (r : RuleCheck) (line : List Char)
    (lineNo : Nat) : List SmartCheckResult :=
  match r line lineNo with
  | none => results
  | some f =>
    if results.any (fun x =>
        x.rule == f.rule && decide (((x.line : Int) - (f.line : Int)).natAbs ≤ 2))
    then results else results ++ [f]

/-- The catalog pass: every rule against every line (1-based line
numbers), threading the deduplicating accumulator. -/
def catalogScan : List (List Char) → Nat → List SmartCheckResult → List SmartCheckResult
  | [], _, results => results
  | line :: rest, idx, results =>
    catalogScan rest (idx + 1)
      (rulesCatalog.foldl (fun acc r => applyRule acc r line (idx + 1)) results)

/-- The `findIndex` locating the first line after the contract line that
starts with `function` (`-1` when there is none). -/
def firstFunctionLineIdx (lines : List (List Char)) (contractLine : Int) : Int :=
  jsFindIndexFrom
    (fun i line => decide ((i : Int) > contractLine) && leadsWith ("function".data) line)
    lines 0

/-- The trimmed line list the analyzer works on. -/
def linesOf (code : List Char) : List (List Char) :=
  (splitOnNl code).map trimWS

/-- The heuristic analyzer `analyzeContractSimple`. -/
def analyzeContractSimple (code : List Char) : List SmartCheckResult :=
  let lines := linesOf code
  let contractLine := jsFindIndex (leadsWith ("contract".data)) lines
  if contractLine = -1 then [noContractFinding]
  else
    let clNat := contractLine.toNat
    let firstFunctionLine := firstFunctionLineIdx lines contractLine
    let stateVariables := jsSlice lines (clNat + 1) firstFunctionLine
    let results1 := svFindings stateVariables clNat 0
    let results2 := funcScan lines 0 none 0 results1
    catalogScan lines 0 results2

/-- The orchestrator `analyzeContract` (the pure analysis path; the
persistence side effect after the result is computed does not change the
returned value, and the `catch` branch is unreachable in the pure
model). -/
def analyzeContract (sourceCode : List Char) : List SmartCheckResult :=
  if sourceCode = [] then [inputValidationFinding]
  else
    let processedCode := preprocessSolidityCode sourceCode
    let results := analyzeContractSimple processedCode
    if results = [] || results.all (fun r => r.severity == "info") then
      [analysisCompleteFinding]
    else results

/-! ### Preprocessing lemmas -/

/-- The head of a `dropWhile isWS` result never satisfies `isWS`. -/
theorem dropWhile_ws_head : ∀ l : List Char,
    l.dropWhile isWS = [] ∨ ∃ c cs, l.dropWhile isWS = c :: cs ∧ isWS c = false := by
  intro l
  induction l with
  | nil => exact Or.inl rfl
  | cons c cs ih =>
    by_cases h : isWS c
    · rw [List.dropWhile_cons, if_pos h]
      exact ih
    · rw [List.dropWhile_cons, if_neg h]
      exact Or.inr ⟨c, cs, rfl, by simpa using h⟩

/-- A list whose head fails `isWS` is unchanged by `dropWhile isWS`. -/
theorem dropWhile_ws_eq_self : ∀ (l : List Char),
    (l = [] ∨ ∃ c cs, l = c :: cs ∧ isWS c = false) → l.dropWhile isWS = l := by
  intro l h
  rcases h with h | ⟨c, cs, rfl, hc⟩
  · simp [h]
  · rw [List.dropWhile_cons, if_neg (by simp [hc])]

/-- `dropWhile isWS` is idempotent. -/
theorem dropWhile_ws_idem (l : List Char) :
    (l.dropWhile isWS).dropWhile isWS = l.dropWhile isWS :=
  dropWhile_ws_eq_self _ (dropWhile_ws_head l)

/-- `trimWS l` is `trimRightWS` applied to the left-trimmed list, whose
head fails `isWS`; the double trim collapses. -/
theorem trimWS_idem (l : List Char) : trimWS (trimWS l) = trimWS l := by
  unfold trimWS trimRightWS
  set u := l.dropWhile isWS with hu
  set v := u.reverse.dropWhile isWS with hv
  have hpre : v.reverse <+: u := by
    have hs : v <:+ u.reverse := hv ▸ List.dropWhile_suffix isWS
    have := List.reverse_prefix.mpr hs
    simpa using this
  have hA : v.reverse.dropWhile isWS = v.reverse := by
    apply dropWhile_ws_eq_self
    rcases dropWhile_ws_head u.reverse with h0 | ⟨c, cs, hcs, hc⟩
    · left
      have : v = [] := by rw [hv, h0]
      simp [this]
    · -- the left-trimmed list u has a non-ws head (or is empty); v.reverse is a prefix of u
      rcases hq : v.reverse with _ | ⟨d, ds⟩
      · exact Or.inl rfl
      · right
        rcases hpre with ⟨t, ht⟩
        rw [hq] at ht
        rcases dropWhile_ws_head l with h2 | ⟨e, es, hes, he⟩
        · rw [← hu] at h2
          rw [h2] at ht
          exact absurd ht (by simp)
        · rw [← hu] at hes
          rw [hes] at ht
          refine ⟨d, ds, rfl, ?_⟩
          have : d = e := by
            have := ht
            simp at this
            exact this.1
          rw [this]; exact he
  rw [hA]
  have hvv : v.reverse.reverse.dropWhile isWS = v := by
    rw [List.reverse_reverse, hv, dropWhile_ws_idem]
  rw [hvv]

/-- Characters of `replaceCRLF l` come from `l`. -/
theorem mem_replaceCRLF : ∀ (l : List Char), ∀ c ∈ replaceCRLF l, c ∈ l
  | [] => by simp [replaceCRLF]
  | [c] => by simp [replaceCRLF]
  | c1 :: c2 :: rest => by
    intro c hc
    rw [replaceCRLF] at hc
    split at hc
    · rename_i hp
      rcases List.mem_cons.mp hc with h | h
      · simp [h, hp.2]
      · exact List.mem_cons_of_mem _ (List.mem_cons_of_mem _ (mem_replaceCRLF rest c h))
    · rcases List.mem_cons.mp hc with h | h
      · simp [h]
      · exact List.mem_cons_of_mem _ (mem_replaceCRLF (c2 :: rest) c h)

/-- `replaceCR` never outputs a carriage return. -/
theorem replaceCR_no_cr (l : List Char) : ∀ c ∈ replaceCR l, c ≠ '\r' := by
  intro c hc
  rcases List.mem_map.mp hc with ⟨x, _, hx⟩
  by_cases h : x = '\r'
  · rw [if_pos h] at hx
    rw [← hx]
    decide
  · rw [if_neg h] at hx
    rw [← hx]
    exact h

/-- Characters of `expandTabs l` are spaces or come from `l`. -/
theorem mem_expandTabs : ∀ (l : List Char), ∀ c ∈ expandTabs l, c = ' ' ∨ c ∈ l
  | [] => by simp [expandTabs]
  | c0 :: rest => by
    intro c hc
    rw [expandTabs] at hc
    split at hc
    · rcases List.mem_cons.mp hc with h | hc
      · exact Or.inl h
      rcases List.mem_cons.mp hc with h | hc
      · exact Or.inl h
      rcases List.mem_cons.mp hc with h | hc
      · exact Or.inl h
      rcases List.mem_cons.mp hc with h | hc
      · exact Or.inl h
      · rcases mem_expandTabs rest c hc with h | h
        · exact Or.inl h
        · exact Or.inr (List.mem_cons_of_mem _ h)
    · rcases List.mem_cons.mp hc with h | hc
      · exact Or.inr (by simp [h])
      · rcases mem_expandTabs rest c hc with h | h
        · exact Or.inl h
        · exact Or.inr (List.mem_cons_of_mem _ h)

/-- `expandTabs` never outputs a tab. -/
theorem expandTabs_no_tab : ∀ (l : List Char), ∀ c ∈ expandTabs l, c ≠ '\t'
  | [] => by simp [expandTabs]
  | c0 :: rest => by
    intro c hc
    rw [expandTabs] at hc
    split at hc
    · rcases List.mem_cons.mp hc with h | hc
      · simp [h]
      rcases List.mem_cons.mp hc with h | hc
      · simp [h]
      rcases List.mem_cons.mp hc with h | hc
      · simp [h]
      rcases List.mem_cons.mp hc with h | hc
      · simp [h]
      · exact expandTabs_no_tab rest c hc
    · rename_i hne
      rcases List.mem_cons.mp hc with h | hc
      · rw [h]; exact hne
      · exact expandTabs_no_tab rest c hc

/-- Characters of `trimWS l` come from `l`. -/
theorem mem_trimWS (l : List Char) : ∀ c ∈ trimWS l, c ∈ l := by
  intro c hc
  unfold trimWS trimRightWS at hc
  rw [List.mem_reverse] at hc
  have h1 := (List.dropWhile_suffix isWS).subset hc
  rw [List.mem_reverse] at h1
  exact (List.dropWhile_suffix isWS).subset h1

/-- `replaceCRLF` is the identity on texts without carriage returns. -/
theorem replaceCRLF_id : ∀ (l : List Char), (∀ c ∈ l, c ≠ '\r') → replaceCRLF l = l
  | [] => fun _ => rfl
  | [c] => fun _ => rfl
  | c1 :: c2 :: rest => by
    intro h
    rw [replaceCRLF]
    rw [if_neg (by
      intro hp
      exact h c1 (by simp) (hp.1))]
    rw [replaceCRLF_id (c2 :: rest) (fun c hc => h c (List.mem_cons_of_mem _ hc))]

/-- `replaceCR` is the identity on texts without carriage returns. -/
theorem replaceCR_id (l : List Char) (h : ∀ c ∈ l, c ≠ '\r') : replaceCR l = l := by
  unfold replaceCR
  conv_rhs => rw [← List.map_id l]
  apply List.map_congr_left
  intro c hc
  rw [if_neg (h c hc)]
  rfl

/-- `expandTabs` is the identity on texts without tabs. -/
theorem expandTabs_id : ∀ (l : List Char), (∀ c ∈ l, c ≠ '\t') → expandTabs l = l
  | [] => fun _ => rfl
  | c :: rest => by
    intro h
    rw [expandTabs]
    rw [if_neg (h c (by simp))]
    rw [expandTabs_id rest (fun c hc => h c (List.mem_cons_of_mem _ hc))]

/-- Preprocessed text contains no carriage return. -/
theorem preprocess_no_cr (code : List Char) :
    ∀ c ∈ preprocessSolidityCode code, c ≠ '\r' := by
  intro c hc
  unfold preprocessSolidityCode at hc
  have h1 := mem_trimWS _ c hc
  rcases mem_expandTabs _ c h1 with h | h
  · rw [h]; decide
  · exact replaceCR_no_cr _ c h

/-- Preprocessed text contains no tab. -/
theorem preprocess_no_tab (code : List Char) :
    ∀ c ∈ preprocessSolidityCode code, c ≠ '\t' := by
  intro c hc
  unfold preprocessSolidityCode at hc
  exact expandTabs_no_tab _ c (mem_trimWS _ c hc)

/-- C6: the preprocessor is total (a Lean function) and idempotent:
`preprocess (preprocess x) = preprocess x` for every input string. -/
theorem preprocessSolidityCode_idem (x : List Char) :
    preprocessSolidityCode (preprocessSolidityCode x) = preprocessSolidityCode x := by
  conv_lhs => rw [preprocessSolidityCode]
  rw [replaceCRLF_id _ (preprocess_no_cr x),
      replaceCR_id _ (preprocess_no_cr x),
      expandTabs_id _ (preprocess_no_tab x)]
  unfold preprocessSolidityCode
  exact trimWS_idem _

/-! ### Whitespace-only input -/

/-- `replaceCR` maps whitespace-only text to whitespace-only text. -/
theorem replaceCR_all_ws (l : List Char) (h : ∀ c ∈ l, isWS c = true) :
    ∀ c ∈ replaceCR l, isWS c = true := by
  intro c hc
  rcases List.mem_map.mp hc with ⟨x, hx, he⟩
  by_cases hr : x = '\r'
  · rw [if_pos hr] at he
    rw [← he]
    decide
  · rw [if_neg hr] at he
    rw [← he]
    exact h x hx

/-- `expandTabs` maps whitespace-only text to whitespace-only text. -/
theorem expandTabs_all_ws (l : List Char) (h : ∀ c ∈ l, isWS c = true) :
    ∀ c ∈ expandTabs l, isWS c = true := by
  intro c hc
  rcases mem_expandTabs l c hc with hsp | hm
  · rw [hsp]; decide
  · exact h c hm

/-- `dropWhile isWS` empties a whitespace-only list. -/
theorem dropWhile_ws_all (l : List Char) (h : ∀ c ∈ l, isWS c = true) :
    l.dropWhile isWS = [] := by
  induction l with
  | nil => rfl
  | cons c cs ih =>
    rw [List.dropWhile_cons, if_pos (by simp [h c (by simp)])]
    exact ih fun d hd => h d (List.mem_cons_of_mem _ hd)

/-- `trimWS` empties a whitespace-only list. -/
theorem trimWS_all_ws (l : List Char) (h : ∀ c ∈ l, isWS c = true) : trimWS l = [] := by
  unfold trimWS trimRightWS
  rw [dropWhile_ws_all l h]
  rfl

/-- A non-empty but whitespace-only input preprocesses to the empty text. -/
theorem preprocess_all_ws (l : List Char) (h : ∀ c ∈ l, isWS c = true) :
    preprocessSolidityCode l = [] := by
  unfold preprocessSolidityCode
  apply trimWS_all_ws
  apply expandTabs_all_ws
  apply replaceCR_all_ws
  intro c hc
  exact h c (mem_replaceCRLF l c hc)

/-- The analyzer's short circuit: non-empty input whose normalized lines
contain no line starting with `contract` yields exactly the single
`syntax` error finding. -/
theorem analyzeContract_no_contract (l : List Char) (h0 : l ≠ [])
    (h1 : jsFindIndex (leadsWith ("contract".data))
      (linesOf (preprocessSolidityCode l)) = -1) :
    analyzeContract l = [noContractFinding] := by
  unfold analyzeContract
  rw [if_neg h0]
  simp only [analyzeContractSimple]
  rw [if_pos h1]
  rw [if_neg (by decide)]

/-- C10: a non-empty input consisting only of whitespace characters is
truthy, so the input-validation branch is not taken: preprocessing trims
it to the empty string, which contains no contract line, and the result
is exactly the single `error`/`syntax` finding — not `input-validation`. -/
theorem whitespace_input_syntax_finding (l : List Char) (h0 : l ≠ [])
    (h1 : ∀ c ∈ l, isWS c = true) :
    analyzeContract l = [noContractFinding] ∧
    noContractFinding.severity = "error" ∧ noContractFinding.rule = "syntax" ∧
    noContractFinding.rule ≠ "input-validation" := by
  refine ⟨?_, rfl, rfl, by decide⟩
  apply analyzeContract_no_contract l h0
  rw [preprocess_all_ws l h1]
  decide

/-- Witness for C10 at the single-space input. -/
theorem whitespace_input_syntax_finding_witness :
    analyzeContract (" ".data) = [noContractFinding] :=
  (whitespace_input_syntax_finding (" ".data) (by decide) (by decide)).1

/-- C8 (amended): for NON-EMPTY input whose normalized, trimmed source has
no line starting with the contract keyword, `analyzeContract` returns
exactly one finding, with severity `error`, ruleId `syntax`, at line 1
column 1, and no further processing contributes findings. -/
theorem no_contract_line_syntax_error (l : List Char) (h0 : l ≠ [])
    (h1 : jsFindIndex (leadsWith ("contract".data))
      (linesOf (preprocessSolidityCode l)) = -1) :
    analyzeContract l = [noContractFinding] ∧
    noContractFinding.severity = "error" ∧ noContractFinding.rule = "syntax" ∧
    noContractFinding.line = 1 ∧ noContractFinding.column = 1 :=
  ⟨analyzeContract_no_contract l h0 h1, rfl, rfl, rfl, rfl⟩

/-- Witness for C8 (amended) at the input `"x"`. -/
theorem no_contract_line_syntax_error_witness :
    analyzeContract ("x".data) = [noContractFinding] :=
  (no_contract_line_syntax_error ("x".data) (by decide) (by decide)).1

/-- Counterexample to C8 as stated: the empty input has no line of its
normalized source starting with the contract keyword, yet `analyzeContract`
returns the `input-validation` error finding, not the `syntax` one. -/
theorem empty_input_validation_cex :
    analyzeContract [] = [inputValidationFinding] ∧
    jsFindIndex (leadsWith ("contract".data))
      (linesOf (preprocessSolidityCode [])) = -1 ∧
    inputValidationFinding.rule = "input-validation" ∧
    inputValidationFinding.rule ≠ "syntax" := by
  refine ⟨?_, by decide, rfl, by decide⟩
  decide
/-! ### Function-analyzer membership lemmas -/

/-- Membership in a two-branch list `if`. -/
theorem mem_ite_lists {α : Type} {c : Prop} [inst : Decidable c] {f : α} {l1 l2 : List α}
    (h : f ∈ if c then l1 else l2) : f ∈ l1 ∨ f ∈ l2 := by
  split at h
  · exact Or.inl h
  · exact Or.inr h

/-- Every result pushed by `analyzeFunction` is one of its seven
constant findings at `startLine + 1`. -/
theorem analyzeFunction_mem (func : FuncState) (s : Nat) :
    ∀ f ∈ analyzeFunction func s,
      f = visibilityFinding (s + 1) ∨ f = payableValidationFinding (s + 1) ∨
      f = reentrancyFnFinding (s + 1) ∨ f = unprotectedInitFinding (s + 1) ∨
      f = unprotectedUpgradeFinding (s + 1) ∨ f = unprotectedWithdrawFinding (s + 1) ∨
      f = unprotectedSelfdestructFinding (s + 1) := by
  intro f hf
  simp only [analyzeFunction, List.mem_append] at hf
  rcases hf with ((h | h) | h) | h
  · rcases mem_ite_lists h with h | h <;> simp_all
  · rcases mem_ite_lists h with h | h
    · rcases mem_ite_lists h with h | h <;> simp_all
    · simp_all
  · rcases mem_ite_lists h with h | h
    · rcases mem_ite_lists h with h | h <;> simp_all
    · simp_all
  · rcases mem_ite_lists h with h | h
    · simp_all
    · simp only [List.mem_append] at h
      rcases h with ((h | h) | h) | h <;> (rcases mem_ite_lists h with h | h <;> simp_all)

/-- Chunk-precise version: the `visibility` and `reentrancy` findings can
only appear together with their triggering conditions. -/
theorem analyzeFunction_mem_strong (func : FuncState) (s : Nat) :
    ∀ f ∈ analyzeFunction func s,
      (f = visibilityFinding (s + 1) ∧
        (func.visibility == some "public" && !containsSub ("pure".data) func.code &&
         !containsSub ("view".data) func.code) = true) ∨
      f = payableValidationFinding (s + 1) ∨
      (f = reentrancyFnFinding (s + 1) ∧ (func.hasExternalCall && func.hasStateChange) = true ∧
        jsFindIndex matchStateChange (splitOnNl func.code) >
          jsFindIndex matchExternalCall (splitOnNl func.code)) ∨
      f = unprotectedInitFinding (s + 1) ∨ f = unprotectedUpgradeFinding (s + 1) ∨
      f = unprotectedWithdrawFinding (s + 1) ∨ f = unprotectedSelfdestructFinding (s + 1) := by
  intro f hf
  simp only [analyzeFunction, List.mem_append] at hf
  rcases hf with ((h | h) | h) | h
  · revert h
    split
    · rename_i hc
      intro h
      exact Or.inl ⟨List.mem_singleton.mp h, hc⟩
    · intro h
      exact absurd h (by simp)
  · rcases mem_ite_lists h with h | h
    · rcases mem_ite_lists h with h | h <;> simp_all
    · simp_all
  · revert h
    split
    · rename_i hflags
      split
      · rename_i hgt
        intro h
        exact Or.inr (Or.inr (Or.inl ⟨List.mem_singleton.mp h, hflags, hgt⟩))
      · intro h
        exact absurd h (by simp)
    · intro h
      exact absurd h (by simp)
  · rcases mem_ite_lists h with h | h
    · simp_all
    · simp only [List.mem_append] at h
      rcases h with ((h | h) | h) | h <;> (rcases mem_ite_lists h with h | h <;> simp_all)

/-- When the mutability condition holds, the `visibility` finding is
pushed. -/
theorem analyzeFunction_visibility_of (func : FuncState) (s : Nat)
    (hc : (func.visibility == some "public" && !containsSub ("pure".data) func.code &&
      !containsSub ("view".data) func.code) = true) :
    visibilityFinding (s + 1) ∈ analyzeFunction func s := by
  simp only [analyzeFunction, List.mem_append]
  refine Or.inl (Or.inl (Or.inl ?_))
  rw [if_pos hc]
  simp

/-- When both flags hold and the first state-change index is strictly
greater than the first external-call index, the `reentrancy` finding is
pushed. -/
theorem analyzeFunction_reentrancy_of (func : FuncState) (s : Nat)
    (hflags : (func.hasExternalCall && func.hasStateChange) = true)
    (hgt : jsFindIndex matchStateChange (splitOnNl func.code) >
      jsFindIndex matchExternalCall (splitOnNl func.code)) :
    reentrancyFnFinding (s + 1) ∈ analyzeFunction func s := by
  simp only [analyzeFunction, List.mem_append]
  refine Or.inl (Or.inr ?_)
  rw [if_pos hflags, if_pos hgt]
  simp

/-- C7: the Function Analyzer emits a `medium` `visibility` finding at
`startLine + 1` exactly when the record's visibility is public and its
accumulated text contains neither `pure` nor `view`; adding `view`
suppresses it. -/
theorem analyzeFunction_visibility_iff (func : FuncState) (startLine : Nat) :
    ((∃ f ∈ analyzeFunction func startLine, f.rule = "visibility") ↔
      (func.visibility = some "public" ∧ containsSub ("pure".data) func.code = false ∧
       containsSub ("view".data) func.code = false)) ∧
    (∀ f ∈ analyzeFunction func startLine, f.rule = "visibility" →
      f = visibilityFinding (startLine + 1) ∧ f.severity = "medium" ∧
      f.message = "Public function without state mutability specifier" ∧
      f.line = startLine + 1) := by
  have hcond : ((func.visibility == some "public" && !containsSub ("pure".data) func.code &&
      !containsSub ("view".data) func.code) = true) ↔
      (func.visibility = some "public" ∧ containsSub ("pure".data) func.code = false ∧
       containsSub ("view".data) func.code = false) := by
    simp [Bool.and_eq_true, Bool.not_eq_true', and_assoc]
  constructor
  · constructor
    · rintro ⟨f, hf, hr⟩
      rcases analyzeFunction_mem_strong func startLine f hf with
        ⟨_, hc⟩ | h | ⟨h, _, _⟩ | h | h | h | h
      · exact hcond.mp hc
      all_goals (rw [h] at hr; simp [visibilityFinding, payableValidationFinding, reentrancyFnFinding, unprotectedInitFinding, unprotectedUpgradeFinding, unprotectedWithdrawFinding, unprotectedSelfdestructFinding] at hr)
    · intro hc
      exact ⟨visibilityFinding (startLine + 1),
        analyzeFunction_visibility_of func startLine (hcond.mpr hc), rfl⟩
  · intro f hf hr
    rcases analyzeFunction_mem func startLine f hf with h | h | h | h | h | h | h
    · exact ⟨h, by rw [h]; exact ⟨rfl, rfl, rfl⟩⟩
    all_goals (rw [h] at hr; simp [visibilityFinding, payableValidationFinding, reentrancyFnFinding, unprotectedInitFinding, unprotectedUpgradeFinding, unprotectedWithdrawFinding, unprotectedSelfdestructFinding] at hr)

/-- A public function record without `pure`/`view`, and the same record
with `view` added, for the C7 witness. -/
def examplePublicFn : FuncState :=
  { code := ("function setValue(uint v) public \x7b\nvalue = v;\n\x7d").data
    hasExternalCall := false
    hasStateChange := true
    isPayable := false
    visibility := some "public"
    hasModifier := false
    modifiers := [] }

/-- The same function declared `view`. -/
def examplePublicViewFn : FuncState :=
  { examplePublicFn with
    code := ("function getValue() public view \x7b\nreturn value;\n\x7d").data }

/-- Witness for C7: the public function without `pure`/`view` yields the
finding; the `view` variant does not. -/
theorem analyzeFunction_visibility_iff_witness :
    (∃ f ∈ analyzeFunction examplePublicFn 1, f.rule = "visibility") ∧
    ¬(∃ f ∈ analyzeFunction examplePublicViewFn 1, f.rule = "visibility") := by
  constructor
  · exact (analyzeFunction_visibility_iff examplePublicFn 1).1.mpr (by decide)
  · intro hex
    have h := (analyzeFunction_visibility_iff examplePublicViewFn 1).1.mp hex
    exact absurd h (by decide)

/-- C1 (amended): for a finalized record with both flags set, the
`reentrancy`/`high` finding at `startLine + 1` is emitted exactly when
the index of the first body line matching the state-change regex is
STRICTLY greater than the index of the first body line matching the
external-call regex (JavaScript `findIndex` values, `-1` when absent). -/
theorem analyzeFunction_reentrancy_iff_strict (func : FuncState) (startLine : Nat)
    (hE : func.hasExternalCall = true) (hS : func.hasStateChange = true) :
    ((∃ f ∈ analyzeFunction func startLine, f.rule = "reentrancy") ↔
      jsFindIndex matchStateChange (splitOnNl func.code) >
        jsFindIndex matchExternalCall (splitOnNl func.code)) ∧
    (∀ f ∈ analyzeFunction func startLine, f.rule = "reentrancy" →
      f = reentrancyFnFinding (startLine + 1) ∧ f.severity = "high" ∧
      f.line = startLine + 1) := by
  constructor
  · constructor
    · rintro ⟨f, hf, hr⟩
      rcases analyzeFunction_mem_strong func startLine f hf with
        ⟨h, _⟩ | h | ⟨_, _, hgt⟩ | h | h | h | h
      · rw [h] at hr; simp [visibilityFinding, payableValidationFinding, reentrancyFnFinding, unprotectedInitFinding, unprotectedUpgradeFinding, unprotectedWithdrawFinding, unprotectedSelfdestructFinding] at hr
      · rw [h] at hr; simp [visibilityFinding, payableValidationFinding, reentrancyFnFinding, unprotectedInitFinding, unprotectedUpgradeFinding, unprotectedWithdrawFinding, unprotectedSelfdestructFinding] at hr
      · exact hgt
      all_goals (rw [h] at hr; simp [visibilityFinding, payableValidationFinding, reentrancyFnFinding, unprotectedInitFinding, unprotectedUpgradeFinding, unprotectedWithdrawFinding, unprotectedSelfdestructFinding] at hr)
    · intro hgt
      exact ⟨reentrancyFnFinding (startLine + 1),
        analyzeFunction_reentrancy_of func startLine (by simp [hE, hS]) hgt, rfl⟩
  · intro f hf hr
    rcases analyzeFunction_mem func startLine f hf with h | h | h | h | h | h | h
    · rw [h] at hr; simp [visibilityFinding, payableValidationFinding, reentrancyFnFinding, unprotectedInitFinding, unprotectedUpgradeFinding, unprotectedWithdrawFinding, unprotectedSelfdestructFinding] at hr
    · rw [h] at hr; simp [visibilityFinding, payableValidationFinding, reentrancyFnFinding, unprotectedInitFinding, unprotectedUpgradeFinding, unprotectedWithdrawFinding, unprotectedSelfdestructFinding] at hr
    · exact ⟨h, by rw [h]; exact ⟨rfl, rfl⟩⟩
    all_goals (rw [h] at hr; simp [visibilityFinding, payableValidationFinding, reentrancyFnFinding, unprotectedInitFinding, unprotectedUpgradeFinding, unprotectedWithdrawFinding, unprotectedSelfdestructFinding] at hr)

/-- The spec's example: an external-call line followed by a state-change
line (flags as the extractor sets them). -/
def exampleWithdrawFn : FuncState :=
  { code := ("function withdraw(uint amount) public \x7b\nmsg.sender.call\x7bvalue: amount\x7d(\"\");\nbalances[msg.sender] -= amount;\n\x7d").data
    hasExternalCall := true
    hasStateChange := true
    isPayable := false
    visibility := some "public"
    hasModifier := false
    modifiers := [] }

/-- The same function with the two lines in the opposite order. -/
def exampleWithdrawFnRev : FuncState :=
  { exampleWithdrawFn with
    code := ("function withdraw(uint amount) public \x7b\nbalances[msg.sender] -= amount;\nmsg.sender.call\x7bvalue: amount\x7d(\"\");\n\x7d").data }

/-- Witness for C1 (amended): the call-then-update order yields the
finding and the reversed order removes it. -/
theorem analyzeFunction_reentrancy_iff_strict_witness :
    (∃ f ∈ analyzeFunction exampleWithdrawFn 1, f.rule = "reentrancy") ∧
    ¬(∃ f ∈ analyzeFunction exampleWithdrawFnRev 1, f.rule = "reentrancy") := by
  constructor
  · exact (analyzeFunction_reentrancy_iff_strict exampleWithdrawFn 1 rfl rfl).1.mpr (by decide)
  · intro hex
    have h := (analyzeFunction_reentrancy_iff_strict exampleWithdrawFnRev 1 rfl rfl).1.mp hex
    exact absurd h (by decide)

/-- A record whose first state-change line IS its first external-call
line (the single body line matches both regexes). -/
def equalIndexFn : FuncState :=
  { code := ("function f() private \x7b\nbalances[msg.sender] -= amount; msg.sender.call\x7bvalue: 1\x7d(\"\");\n\x7d").data
    hasExternalCall := true
    hasStateChange := true
    isPayable := false
    visibility := some "private"
    hasModifier := false
    modifiers := [] }

/-- Counterexample to C1 as stated: both flags are set and the first
state-change index EQUALS (so is not earlier than) the first
external-call index, yet no `reentrancy` finding is emitted — the code
requires strict inequality, not greater-or-equal. -/
theorem analyzeFunction_reentrancy_equal_index_cex :
    equalIndexFn.hasExternalCall = true ∧ equalIndexFn.hasStateChange = true ∧
    jsFindIndex matchStateChange (splitOnNl equalIndexFn.code) =
      jsFindIndex matchExternalCall (splitOnNl equalIndexFn.code) ∧
    jsFindIndex matchStateChange (splitOnNl equalIndexFn.code) ≥
      jsFindIndex matchExternalCall (splitOnNl equalIndexFn.code) ∧
    ¬∃ f ∈ analyzeFunction equalIndexFn 1, f.rule = "reentrancy" := by
  decide

/-- Modelled from the claim's wording: the §4.2 reentrancy line rule's
external-call SUBSTRING patterns (`.call\x7b`, `.send(`, `.transfer(`). -/
def specExternalCallPat (line : List Char) : Bool :=
  containsSub (".call\x7b".data) line || containsSub (".send(".data) line ||
    containsSub (".transfer(".data) line

/-- Modelled from the claim's wording: the §4.2 reentrancy line rule's
state-change SUBSTRING patterns (`balances[`, `+=`, `-=`). -/
def specStateChangePat (line : List Char) : Bool :=
  containsSub ("balances[".data) line || containsSub ("+=".data) line ||
    containsSub ("-=".data) line

/-- The state-change regex fires exactly on lines containing `+`, `-`
or `=`. -/
theorem matchStateChange_chars (line : List Char) :
    matchStateChange line = line.any (fun c => c == '+' || c == '-' || c == '=') := by
  induction line with
  | nil => rfl
  | cons c cs ih =>
    rw [matchStateChange, List.any_cons, ← ih]
    have hst : stateAt (c :: cs) = (c == '+' || c == '-' || c == '=') := by
      by_cases h1 : c = '+' <;> by_cases h2 : c = '-' <;> by_cases h3 : c = '='
      all_goals
        (have e1 : (c == '+') = decide (c = '+') := rfl
         have e2 : (c == '-') = decide (c = '-') := rfl
         have e3 : (c == '=') = decide (c = '=') := rfl
         simp [stateAt, e1, e2, e3, h1, h2, h3])
    rw [hst]

/-- C3 (amended): a body line sets `hasExternalCall` exactly when it
matches the regex `\.(call|send|transfer)\s*[({]` and `hasStateChange`
exactly when it matches `([+=]|[-=]|= [^=])` — equivalently, when it
contains any of the characters `+`, `-`, `=`; these are regexes, not the
§4.2 substring patterns. -/
theorem bodyStep_flags_regex (f : FuncState) (line : List Char) :
    (bodyStep f line).hasExternalCall = (f.hasExternalCall || matchExternalCall line) ∧
    (bodyStep f line).hasStateChange = (f.hasStateChange || matchStateChange line) ∧
    (bodyStep f line).code = f.code ++ '\n' :: line ∧
    matchStateChange line = line.any (fun c => c == '+' || c == '-' || c == '=') := by
  refine ⟨?_, ?_, ?_, matchStateChange_chars line⟩ <;>
    (by_cases h1 : matchExternalCall line = true <;>
     by_cases h2 : matchStateChange line = true <;>
     simp [bodyStep, h1, h2])

/-- Counterexample to C3 as stated: the line `x = 1` contains none of the
§4.2 state-change substrings yet sets `hasStateChange`, and the line
`.call (x)` contains none of the §4.2 external-call substrings yet sets
`hasExternalCall`. -/
theorem bodyStep_flags_substring_cex :
    (bodyStep (mkFunc ("function f() \x7b".data)) ("x = 1".data)).hasStateChange = true ∧
    specStateChangePat ("x = 1".data) = false ∧
    (bodyStep (mkFunc ("function f() \x7b".data)) (".call (x)".data)).hasExternalCall = true ∧
    specExternalCallPat (".call (x)".data) = false := by
  decide

/-- C9: the `unchecked-send` rule returns a `medium` finding with rule id
`unchecked-send` at column 1 exactly when the line contains `.send(` or
`.transfer(` and none of `require(`, `if (`, `assert(`. -/
theorem uncheckedSendRule_spec (line : List Char) (n : Nat) :
    ((uncheckedSendRule line n).isSome =
      ((containsSub (".send(".data) line || containsSub (".transfer(".data) line) &&
       !(containsSub ("require(".data) line || containsSub ("if (".data) line ||
         containsSub ("assert(".data) line))) ∧
    (∀ f, uncheckedSendRule line n = some f →
      f = uncheckedSendFinding n ∧ f.severity = "medium" ∧ f.rule = "unchecked-send" ∧
      f.column = 1 ∧ f.line = n) := by
  constructor
  · simp only [uncheckedSendRule]
    split
    · rename_i h1
      split
      · rename_i h2
        simp only [Option.isSome_some, h1, h2, Bool.and_true]
      · rename_i h2
        simp only [Bool.not_eq_true, Bool.not_eq_false] at h2
        simp [h1, h2]
    · rename_i h1
      simp only [Bool.or_eq_true, not_or, Bool.not_eq_true] at h1
      simp [h1.1, h1.2]
  · intro f heq
    simp only [uncheckedSendRule] at heq
    split at heq
    · split at heq
      · rw [Option.some_inj] at heq
        refine ⟨heq.symm, ?_, ?_, ?_, ?_⟩ <;> rw [← heq] <;> rfl
      · exact absurd heq (by simp)
    · exact absurd heq (by simp)

/-- Witness for C9 at a concrete unchecked `send` line. -/
theorem uncheckedSendRule_spec_witness :
    uncheckedSendFinding 7 = uncheckedSendFinding 7 ∧
    (uncheckedSendFinding 7).severity = "medium" ∧
    (uncheckedSendFinding 7).rule = "unchecked-send" ∧
    (uncheckedSendFinding 7).column = 1 ∧ (uncheckedSendFinding 7).line = 7 :=
  (uncheckedSendRule_spec ("recipient.send(amount);".data) 7).2
    (uncheckedSendFinding 7) (by decide)

/-- A contract whose reentrancy is detected both by the Function Analyzer
(finding at line 2) and by the catalog `reentrancy` line rule (candidate
at line 4, within 2 lines, hence suppressed). -/
def dedupExample : List Char :=
  ("contract D \x7b\nfunction f() private \x7b\na.call\x7bvalue: 1\x7d(\"\");\nbalances[x] += 1; b.send(1);\n\x7d\n\x7d").data

/-- C4: a line-rule finding is merged unless a finding with the same rule
id within two lines is already in the sequence; consequently the doubly
detected reentrancy instance of `dedupExample` appears exactly once. -/
theorem applyRule_dedup_iff :
    (∀ (results : List SmartCheckResult) (r : RuleCheck) (line : List Char) (n : Nat)
       (f : SmartCheckResult), r line n = some f →
      applyRule results r line n =
        if ∃ x ∈ results, x.rule = f.rule ∧ ((x.line : Int) - (f.line : Int)).natAbs ≤ 2
        then results else results ++ [f]) ∧
    ((analyzeContractSimple dedupExample).filter
        (fun f => f.rule == "reentrancy")).length = 1 ∧
    reentrancyFnFinding 2 ∈ analyzeContractSimple dedupExample ∧
    (reentrancyRule ("balances[x] += 1; b.send(1);".data) 4).isSome = true ∧
    reentrancyRuleFinding 4 ∉ analyzeContractSimple dedupExample := by
  refine ⟨?_, by decide, by decide, by decide, by decide⟩
  intro results r line n f heq
  simp only [applyRule, heq]
  have hiff : (results.any fun x =>
      x.rule == f.rule && decide (((x.line : Int) - (f.line : Int)).natAbs ≤ 2)) = true ↔
      ∃ x ∈ results, x.rule = f.rule ∧ ((x.line : Int) - (f.line : Int)).natAbs ≤ 2 := by
    simp [List.any_eq_true, Bool.and_eq_true, beq_iff_eq]
  by_cases hc : ∃ x ∈ results, x.rule = f.rule ∧ ((x.line : Int) - (f.line : Int)).natAbs ≤ 2
  · rw [if_pos (hiff.mpr hc), if_pos hc]
  · rw [if_neg (fun hh => hc (hiff.mp hh)), if_neg hc]

/-- Witness for C4: a `tx-origin` candidate at line 1 is suppressed by an
existing `tx-origin` finding at line 2 (same rule id, one line apart). -/
theorem applyRule_dedup_iff_witness :
    applyRule [txOriginFinding 2] txOriginRule ("tx.origin".data) 1 = [txOriginFinding 2] := by
  have h := applyRule_dedup_iff.1 [txOriginFinding 2] txOriginRule ("tx.origin".data) 1
    (txOriginFinding 1) (by decide)
  rw [h]
  decide

/-! ### Shape of the findings each pipeline stage can add -/

/-- The findings the function analyzer can push. -/
def FuncConst (f : SmartCheckResult) : Prop :=
  ∃ n, f = visibilityFinding n ∨ f = payableValidationFinding n ∨ f = reentrancyFnFinding n ∨
    f = unprotectedInitFinding n ∨ f = unprotectedUpgradeFinding n ∨
    f = unprotectedWithdrawFinding n ∨ f = unprotectedSelfdestructFinding n

/-- The findings the rule catalog can return. -/
def CatalogConst (f : SmartCheckResult) : Prop :=
  ∃ n, f = reentrancyRuleFinding n ∨ f = txOriginFinding n ∨ f = timestampFinding n ∨
    f = hardcodedAddressFinding n ∨ f = uncheckedSendFinding n ∨ f = delegatecallFinding n ∨
    f = selfdestructUsageFinding n ∨ f = suicideUsageFinding n ∨ f = throwUsageFinding n ∨
    f = gasLimitFinding n

/-- Function-analyzer findings are never `info`, never the sentinel, and
never `state-visibility`. -/
theorem funcConst_props (f : SmartCheckResult) (h : FuncConst f) :
    f.severity ≠ "info" ∧ f.rule ≠ "analysis-complete" ∧ f.rule ≠ "state-visibility" := by
  obtain ⟨n, h⟩ := h
  rcases h with rfl | rfl | rfl | rfl | rfl | rfl | rfl <;>
    refine ⟨?_, ?_, ?_⟩ <;>
      simp [visibilityFinding, payableValidationFinding, reentrancyFnFinding,
        unprotectedInitFinding, unprotectedUpgradeFinding, unprotectedWithdrawFinding,
        unprotectedSelfdestructFinding]

/-- Catalog findings are never `info`, never the sentinel, and never
`state-visibility`. -/
theorem catalogConst_props (f : SmartCheckResult) (h : CatalogConst f) :
    f.severity ≠ "info" ∧ f.rule ≠ "analysis-complete" ∧ f.rule ≠ "state-visibility" := by
  obtain ⟨n, h⟩ := h
  rcases h with rfl | rfl | rfl | rfl | rfl | rfl | rfl | rfl | rfl | rfl <;>
    refine ⟨?_, ?_, ?_⟩ <;>
      simp [reentrancyRuleFinding, txOriginFinding, timestampFinding, hardcodedAddressFinding,
        uncheckedSendFinding, delegatecallFinding, selfdestructUsageFinding,
        suicideUsageFinding, throwUsageFinding, gasLimitFinding]

/-- Every state-variable finding is a `stateVisibilityFinding`. -/
theorem svFindings_mem_const : ∀ (sv : List (List Char)) (cl k : Nat),
    ∀ f ∈ svFindings sv cl k, ∃ n, f = stateVisibilityFinding n := by
  intro sv
  induction sv with
  | nil => intro cl k f hf; exact absurd hf (by simp [svFindings])
  | cons line rest ih =>
    intro cl k f hf
    rw [svFindings] at hf
    rcases List.mem_append.mp hf with h | h
    · rcases mem_ite_lists h with h | h
      · exact ⟨cl + k + 2, List.mem_singleton.mp h⟩
      · exact absurd h (by simp)
    · exact ih cl (k + 1) f h

/-- `funcScan` only appends to its accumulator. -/
theorem funcScan_append : ∀ (lines : List (List Char)) (i : Nat) (cur : Option FuncState)
    (fs : Nat) (res : List SmartCheckResult),
    funcScan lines i cur fs res = res ++ funcScan lines i cur fs [] := by
  intro lines
  induction lines with
  | nil =>
    intro i cur fs res
    cases cur <;> simp [funcScan]
  | cons line rest ih =>
    intro i cur fs res
    cases cur with
    | none =>
      rw [funcScan]
      conv_rhs => rw [funcScan]
      by_cases h : leadsWith ("function".data) line = true
      · rw [if_pos h, if_pos h]
        exact ih (i + 1) (some (mkFunc line)) i res
      · rw [if_neg h, if_neg h]
        exact ih (i + 1) none fs res
    | some g =>
      rw [funcScan]
      conv_rhs => rw [funcScan]
      by_cases h : leadsWith ("function".data) line = true
      · rw [if_pos h, if_pos h]
        rw [ih (i + 1) (some (mkFunc line)) i (res ++ analyzeFunction g fs),
            ih (i + 1) (some (mkFunc line)) i ([] ++ analyzeFunction g fs)]
        simp [List.append_assoc]
      · rw [if_neg h, if_neg h]
        exact ih (i + 1) (some (bodyStep g line)) fs res

/-- Everything `funcScan` adds beyond its accumulator is a
function-analyzer finding. -/
theorem funcScan_mem : ∀ (lines : List (List Char)) (i : Nat) (cur : Option FuncState)
    (fs : Nat), ∀ f ∈ funcScan lines i cur fs [], FuncConst f := by
  intro lines
  induction lines with
  | nil =>
    intro i cur fs f hf
    cases cur with
    | none => exact absurd hf (by simp [funcScan])
    | some g =>
      rw [funcScan] at hf
      simp only [List.nil_append] at hf
      rcases analyzeFunction_mem g fs f hf with h | h | h | h | h | h | h <;>
        exact ⟨fs + 1, by tauto⟩
  | cons line rest ih =>
    intro i cur fs f hf
    cases cur with
    | none =>
      rw [funcScan] at hf
      by_cases h : leadsWith ("function".data) line = true
      · rw [if_pos h] at hf
        exact ih (i + 1) (some (mkFunc line)) i f hf
      · rw [if_neg h] at hf
        exact ih (i + 1) none fs f hf
    | some g =>
      rw [funcScan] at hf
      by_cases h : leadsWith ("function".data) line = true
      · rw [if_pos h] at hf
        rw [funcScan_append, List.nil_append] at hf
        rcases List.mem_append.mp hf with hm | hm
        · rcases analyzeFunction_mem g fs f hm with hh | hh | hh | hh | hh | hh | hh <;>
            exact ⟨fs + 1, by tauto⟩
        · exact ih (i + 1) (some (mkFunc line)) i f hm
      · rw [if_neg h] at hf
        exact ih (i + 1) (some (bodyStep g line)) fs f hf

/-- Every rule in the catalog returns one of the catalog findings at its
given line number. -/
theorem rulesCatalog_good : ∀ r ∈ rulesCatalog, ∀ (line : List Char) (k : Nat)
    (f : SmartCheckResult), r line k = some f → CatalogConst f := by
  intro r hr line k f heq
  simp only [rulesCatalog, List.mem_cons, List.not_mem_nil, or_false] at hr
  rcases hr with rfl | rfl | rfl | rfl | rfl | rfl | rfl | rfl | rfl | rfl <;>
    (simp only [reentrancyRule, txOriginRule, timestampRule, hardcodedAddressRule,
       uncheckedSendRule, delegatecallRule, selfdestructUsageRule, suicideUsageRule,
       throwUsageRule, gasLimitRule] at heq) <;>
    (repeat' split at heq) <;>
    first
      | (rw [Option.some_inj] at heq; exact ⟨k, by rw [← heq]; tauto⟩)
      | exact absurd heq (by simp)

/-- One `applyRule` step appends nothing or one catalog finding. -/
theorem applyRule_exists (res : List SmartCheckResult) (r : RuleCheck) (hr : r ∈ rulesCatalog)
    (line : List Char) (k : Nat) :
    ∃ e, applyRule res r line k = res ++ e ∧ ∀ f ∈ e, CatalogConst f := by
  rcases hm : r line k with _ | f
  · refine ⟨[], ?_, by simp⟩
    simp [applyRule, hm]
  · simp only [applyRule, hm]
    split
    · exact ⟨[], by simp, by simp⟩
    · refine ⟨[f], rfl, ?_⟩
      intro g hg
      rw [List.mem_singleton.mp hg]
      exact rulesCatalog_good r hr line k f hm

/-- The fold of the catalog over one line appends only catalog findings. -/
theorem foldl_rules_exists : ∀ (rs : List RuleCheck), (∀ r ∈ rs, r ∈ rulesCatalog) →
    ∀ (res : List SmartCheckResult) (line : List Char) (k : Nat),
    ∃ e, rs.foldl (fun acc r => applyRule acc r line k) res = res ++ e ∧
      ∀ f ∈ e, CatalogConst f := by
  intro rs
  induction rs with
  | nil => intro _ res line k; exact ⟨[], by simp, by simp⟩
  | cons r rest ih =>
    intro hgood res line k
    obtain ⟨e1, he1, hp1⟩ := applyRule_exists res r (hgood r (by simp)) line k
    obtain ⟨e2, he2, hp2⟩ := ih (fun s hs => hgood s (List.mem_cons_of_mem _ hs))
      (applyRule res r line k) line k
    refine ⟨e1 ++ e2, ?_, ?_⟩
    · rw [List.foldl_cons, he2, he1, List.append_assoc]
    · intro f hf
      rcases List.mem_append.mp hf with h | h
      · exact hp1 f h
      · exact hp2 f h

/-- The whole catalog pass appends only catalog findings. -/
theorem catalogScan_exists : ∀ (lines : List (List Char)) (idx : Nat)
    (res : List SmartCheckResult),
    ∃ e, catalogScan lines idx res = res ++ e ∧ ∀ f ∈ e, CatalogConst f := by
  intro lines
  induction lines with
  | nil => intro idx res; exact ⟨[], by simp [catalogScan], by simp⟩
  | cons line rest ih =>
    intro idx res
    obtain ⟨e1, he1, hp1⟩ := foldl_rules_exists rulesCatalog (fun r hr => hr) res line (idx + 1)
    obtain ⟨e2, he2, hp2⟩ := ih (idx + 1)
      (rulesCatalog.foldl (fun acc r => applyRule acc r line (idx + 1)) res)
    refine ⟨e1 ++ e2, ?_, ?_⟩
    · rw [catalogScan, he2, he1, List.append_assoc]
    · intro f hf
      rcases List.mem_append.mp hf with h | h
      · exact hp1 f h
      · exact hp2 f h

/-- Everything in the three-stage pipeline output is a state-variable,
function-analyzer, or catalog finding. -/
theorem pipeline_mem (lines sv : List (List Char)) (cl : Nat) :
    ∀ f ∈ catalogScan lines 0 (funcScan lines 0 none 0 (svFindings sv cl 0)),
      (∃ n, f = stateVisibilityFinding n) ∨ FuncConst f ∨ CatalogConst f := by
  intro f hf
  obtain ⟨e2, he2, hp2⟩ :=
    catalogScan_exists lines 0 (funcScan lines 0 none 0 (svFindings sv cl 0))
  rw [he2] at hf
  rcases List.mem_append.mp hf with h | h
  · rw [funcScan_append] at h
    rcases List.mem_append.mp h with h1 | h1
    · exact Or.inl (svFindings_mem_const sv cl 0 f h1)
    · exact Or.inr (Or.inl (funcScan_mem lines 0 none 0 f h1))
  · exact Or.inr (Or.inr (hp2 f h))

/-- No finding of `analyzeContractSimple` is `info` or the sentinel. -/
theorem analyzeContractSimple_mem (code : List Char) :
    ∀ f ∈ analyzeContractSimple code,
      f.severity ≠ "info" ∧ f.rule ≠ "analysis-complete" := by
  intro f hf
  simp only [analyzeContractSimple] at hf
  split at hf
  · rw [List.mem_singleton] at hf
    rw [hf]
    exact ⟨by simp [noContractFinding], by simp [noContractFinding]⟩
  · rcases pipeline_mem _ _ _ f hf with ⟨n, rfl⟩ | h | h
    · exact ⟨by simp [stateVisibilityFinding], by simp [stateVisibilityFinding]⟩
    · exact ⟨(funcConst_props f h).1, (funcConst_props f h).2.1⟩
    · exact ⟨(catalogConst_props f h).1, (catalogConst_props f h).2.1⟩

/-- C2: the sentinel `analysis-complete` finding never co-occurs with a
non-`info` finding: whenever the result of `analyzeContract` contains a
finding with ruleId `analysis-complete`, every finding in the result has
severity `info` (the accumulated sequence was replaced by the single
sentinel; otherwise the sequence, which never contains the sentinel, is
returned unmodified). -/
theorem analyzeContract_sentinel_exclusive (code : List Char) :
    ∀ f ∈ analyzeContract code, ∀ g ∈ analyzeContract code,
      f.rule = "analysis-complete" → g.severity = "info" := by
  intro f hf g hg hr
  unfold analyzeContract at hf hg
  by_cases h0 : code = []
  · rw [if_pos h0, List.mem_singleton] at hf
    rw [hf] at hr
    exact absurd hr (by simp [inputValidationFinding])
  · rw [if_neg h0] at hf hg
    set res := analyzeContractSimple (preprocessSolidityCode code) with hres
    by_cases h1 : (decide (res = []) || res.all fun r => r.severity == "info") = true
    · rw [if_pos h1, List.mem_singleton] at hg
      rw [hg]
      rfl
    · rw [if_neg h1] at hf
      exact absurd hr (analyzeContractSimple_mem (preprocessSolidityCode code) f hf).2

/-- Witness for C2 at a minimal contract with no findings: the sentinel
is present and indeed `info`. -/
theorem analyzeContract_sentinel_exclusive_witness :
    analysisCompleteFinding.severity = "info" :=
  analyzeContract_sentinel_exclusive ("contract C".data) analysisCompleteFinding (by decide)
    analysisCompleteFinding (by decide) (by decide)

/-! ### Preamble (state-variable) pass -/

/-- JavaScript `slice` with end `-1` keeps everything up to, but
excluding, the LAST element. -/
theorem jsSlice_neg_one (l : List (List Char)) (s : Nat) :
    jsSlice l s (-1) = (l.take (l.length - 1)).drop s := by
  simp only [jsSlice]
  rw [if_pos (by decide)]
  have h : ((l.length : Int) + (-1)).toNat = l.length - 1 := by omega
  rw [h]

/-- JavaScript `slice` with a non-negative end bound. -/
theorem jsSlice_nat (l : List (List Char)) (s k : Nat) :
    jsSlice l s (k : Int) = (l.take k).drop s := by
  simp only [jsSlice]
  rw [if_neg (by omega)]
  rw [Int.toNat_ofNat]

/-- Membership in the state-variable findings: exactly the preamble
lines satisfying `svPred`, at line `contractLine + offset + 2`. -/
theorem svFindings_mem_iff : ∀ (sv : List (List Char)) (cl k : Nat) (f : SmartCheckResult),
    f ∈ svFindings sv cl k ↔
      ∃ i, i < sv.length ∧ svPred (sv.getD i []) = true ∧
        f = stateVisibilityFinding (cl + (k + i) + 2) := by
  intro sv
  induction sv with
  | nil => intro cl k f; simp [svFindings]
  | cons line rest ih =>
    intro cl k f
    rw [svFindings, List.mem_append]
    constructor
    · intro h
      rcases h with h | h
      · revert h
        split
        · rename_i hp
          intro h
          refine ⟨0, by simp, by simpa using hp, ?_⟩
          rw [List.mem_singleton.mp h]
          congr 1
        · intro h
          exact absurd h (by simp)
      · obtain ⟨i, hi, hp, hf⟩ := (ih cl (k + 1) f).mp h
        refine ⟨i + 1, by simpa using hi, by simpa using hp, ?_⟩
        rw [hf]
        congr 1
        omega
    · rintro ⟨i, hi, hp, hf⟩
      cases i with
      | zero =>
        left
        rw [if_pos (by simpa using hp)]
        simp [hf]
      | succ j =>
        right
        apply (ih cl (k + 1) f).mpr
        refine ⟨j, by simpa using hi, by simpa using hp, ?_⟩
        rw [hf]
        congr 1
        omega

/-- When a contract line exists, the `state-visibility` findings of the
analyzer are exactly the state-variable findings of the sliced
preamble — the function and catalog passes contribute none. -/
theorem analyzeContractSimple_sv_filter (code : List Char) (cl : Nat)
    (hcl : jsFindIndex (leadsWith ("contract".data)) (linesOf code) = (cl : Int)) :
    (analyzeContractSimple code).filter (fun f => f.rule == "state-visibility") =
      svFindings (jsSlice (linesOf code) (cl + 1)
        (firstFunctionLineIdx (linesOf code) (cl : Int))) cl 0 := by
  simp only [analyzeContractSimple]
  rw [hcl]
  rw [if_neg (by omega)]
  rw [Int.toNat_ofNat]
  set sv := jsSlice (linesOf code) (cl + 1)
    (firstFunctionLineIdx (linesOf code) (cl : Int)) with hsv
  obtain ⟨e2, he2, hp2⟩ := catalogScan_exists (linesOf code) 0
    (funcScan (linesOf code) 0 none 0 (svFindings sv cl 0))
  rw [he2, funcScan_append, List.filter_append, List.filter_append]
  have h1 : (svFindings sv cl 0).filter (fun f => f.rule == "state-visibility") =
      svFindings sv cl 0 := by
    apply List.filter_eq_self.mpr
    intro f hf
    obtain ⟨n, rfl⟩ := svFindings_mem_const sv cl 0 f hf
    rfl
  have h2 : (funcScan (linesOf code) 0 none 0 []).filter
      (fun f => f.rule == "state-visibility") = [] := by
    apply List.filter_eq_nil_iff.mpr
    intro f hf
    have hne := (funcConst_props f (funcScan_mem (linesOf code) 0 none 0 f hf)).2.2
    simpa using hne
  have h3 : e2.filter (fun f => f.rule == "state-visibility") = [] := by
    apply List.filter_eq_nil_iff.mpr
    intro f hf
    have hne := (catalogConst_props f (hp2 f hf)).2.2
    simpa using hne
  rw [h1, h2, h3, List.append_nil, List.append_nil]

/-- C5 (amended): with a contract line at index `cl`, the
`state-visibility` findings are exactly those of the sliced preamble:
up to the first subsequent `function` line when one exists, and — when
no function line exists — up to the LAST line EXCLUSIVE (JavaScript
`slice` applied to the `-1` returned by `findIndex`); each preamble line
passing the public/not-constant/not-immutable test yields the `low`
finding at `contractLine + offset + 2`. -/
theorem stateVisibility_preamble (code : List Char) (cl : Nat)
    (hcl : jsFindIndex (leadsWith ("contract".data)) (linesOf code) = (cl : Int)) :
    ((analyzeContractSimple code).filter (fun f => f.rule == "state-visibility") =
      svFindings (jsSlice (linesOf code) (cl + 1)
        (firstFunctionLineIdx (linesOf code) (cl : Int))) cl 0) ∧
    (firstFunctionLineIdx (linesOf code) (cl : Int) = -1 →
      jsSlice (linesOf code) (cl + 1) (firstFunctionLineIdx (linesOf code) (cl : Int)) =
        ((linesOf code).take ((linesOf code).length - 1)).drop (cl + 1)) ∧
    (∀ k : Nat, firstFunctionLineIdx (linesOf code) (cl : Int) = (k : Int) →
      jsSlice (linesOf code) (cl + 1) (firstFunctionLineIdx (linesOf code) (cl : Int)) =
        ((linesOf code).take k).drop (cl + 1)) ∧
    (∀ (sv : List (List Char)) (f : SmartCheckResult), f ∈ svFindings sv cl 0 ↔
      ∃ i, i < sv.length ∧ svPred (sv.getD i []) = true ∧
        f = stateVisibilityFinding (cl + i + 2)) := by
  refine ⟨analyzeContractSimple_sv_filter code cl hcl, ?_, ?_, ?_⟩
  · intro h
    rw [h]
    exact jsSlice_neg_one _ _
  · intro k h
    rw [h]
    exact jsSlice_nat _ _ _
  · intro sv f
    have h := svFindings_mem_iff sv cl 0 f
    simpa using h

/-- Witness for C5 (amended): the spec's example contract yields exactly
the one `state-visibility` finding at line 2 (its last line is the
closing brace, so the truncation is invisible there). -/
theorem stateVisibility_preamble_witness :
    (analyzeContractSimple ("contract Test \x7b\nuint public value;\n\x7d".data)).filter
      (fun f => f.rule == "state-visibility") = [stateVisibilityFinding 2] := by
  have h := (stateVisibility_preamble ("contract Test \x7b\nuint public value;\n\x7d".data) 0
    (by decide)).1
  rw [h]
  decide

/-- Counterexample to C5 as stated: with no function line, a public
state variable on the LAST line is strictly between the contract
declaration and the end of input and passes the test, yet yields NO
finding — `slice(contractLine+1, -1)` drops the last line. -/
theorem stateVisibility_last_line_cex :
    jsFindIndex (leadsWith ("contract".data))
      (linesOf ("contract C \x7b\nuint public value;".data)) = ((0 : Nat) : Int) ∧
    firstFunctionLineIdx (linesOf ("contract C \x7b\nuint public value;".data))
      ((0 : Nat) : Int) = -1 ∧
    svPred ((linesOf ("contract C \x7b\nuint public value;".data)).getD 1 []) = true ∧
    (analyzeContractSimple ("contract C \x7b\nuint public value;".data)).filter
      (fun f => f.rule == "state-visibility") = [] := by
  decide
